import Mathlib

/-!
Verification of the achievement-tracking core of the `loyalty` cog
(`src/loyalty/loyalty.py`), shallowly embedded in Lean 4.

The embedding mirrors the Python source:
* `GoalRecord` models the goal dicts `{'level': .., 'name': .., 'description': ..}`.
* `achieved`, `unachieved`, `currentGoal` model the read-only views of
  `Achievement` (pure functions of the integer counter `_current` and the
  goal list).
* `add_goal` / `remove_goal` model `Achievement.add_goal` / `Achievement.remove_goal`
  (append / filter, then `sorted(..., key=lambda g: g['level'])`).
* The `Signal` receiver list, `send_robust`, the tracker registry
  (`register`, name resolution) and the storage backend
  (`_save_loyalty`, `_load_loyalty`, `remove_id`) are embedded further below.

Python exceptions are modelled by the `PyError` type and fallible code
returns `Except PyError _`; runtime `NameError` / `KeyError` /
`IndexError` / `AttributeError` arising from slips in the source are
modelled faithfully where the source would raise them.
-/

namespace Loyalty

/-- The exceptions that can surface in the embedded code: the module's own
`ValueError`, `AlreadyRegistered` and `NotRegistered`, the interpreter-level
errors the source can raise (`KeyError`, `NameError`, `IndexError`,
`AttributeError`), and `exc n` for an arbitrary exception raised by a
signal receiver. -/
inductive PyError where
  | valueError
  | alreadyRegistered
  | notRegistered
  | keyError
  | nameError
  | indexError
  | attributeError
  | exc (code : Nat)
deriving DecidableEq, Repr

/-- One goal dict `{'level': l, 'name': n, 'description': d}`. -/
structure GoalRecord where
  level : Int
  name : String
  description : String
deriving DecidableEq, Repr

/-- Model of `Achievement.achieved`: `[_ for _ in self.goals if self._current >= _['level']]`. -/
def achieved (goals : List GoalRecord) (cur : Int) : List GoalRecord :=
  goals.filter (fun g => cur ≥ g.level)

/-- Model of `Achievement.unachieved`: `[_ for _ in self.goals if self._current < _['level']]`. -/
def unachieved (goals : List GoalRecord) (cur : Int) : List GoalRecord :=
  goals.filter (fun g => cur < g.level)

/-- Model of `Achievement.current`: `(self._current, g[0])` for the first unachieved
goal, or `(self._current, None)` when all goals are met. -/
def currentGoal (goals : List GoalRecord) (cur : Int) : Int × Option GoalRecord :=
  match goals.filter (fun g => cur < g.level) with
  | [] => (cur, none)
  | g :: _ => (cur, some g)

/-- Model of Python `sorted(result, key=lambda g: g['level'])`. -/
def sortGoals (l : List GoalRecord) : List GoalRecord :=
  l.mergeSort (fun a b => a.level ≤ b.level)

/-- Model of `Achievement.add_goal(level, name, description)`: append the new record,
then re-sort ascending by level. -/
def add_goal (goals : List GoalRecord) (level : Int) (nm desc : String) : List GoalRecord :=
  sortGoals (goals ++ [⟨level, nm, desc⟩])

/-- Model of `Achievement.remove_goal(name, level)`: keep the records matching
`not (_.get('name') == name or _.get('level') == level)`, then re-sort. -/
def remove_goal (goals : List GoalRecord) (nm : String) (level : Int) : List GoalRecord :=
  sortGoals (goals.filter (fun g => ¬ (g.name = nm ∨ g.level = level)))

/-- The sortedness predicate maintained on goal lists: ascending by `level`. -/
abbrev SortedByLevel (l : List GoalRecord) : Prop :=
  l.Pairwise (fun a b => a.level ≤ b.level)

theorem sortGoals_sorted (l : List GoalRecord) : SortedByLevel (sortGoals l) := by
  have htrans : ∀ a b c : GoalRecord, (decide (a.level ≤ b.level)) = true →
      (decide (b.level ≤ c.level)) = true → (decide (a.level ≤ c.level)) = true := by
    intro a b c hab hbc
    simp only [decide_eq_true_eq] at hab hbc ⊢
    omega
  have htotal : ∀ a b : GoalRecord,
      ((decide (a.level ≤ b.level)) || (decide (b.level ≤ a.level))) = true := by
    intro a b
    simp only [Bool.or_eq_true, decide_eq_true_eq]
    omega
  have h := @List.sorted_mergeSort GoalRecord
    (fun a b => decide (a.level ≤ b.level)) htrans htotal l
  refine h.imp ?_
  intro a b hab
  exact of_decide_eq_true hab

theorem sortGoals_perm (l : List GoalRecord) : (sortGoals l).Perm l :=
  List.mergeSort_perm l _

theorem achieved_eq_nil_of_lt {goals : List GoalRecord} {cur : Int} {g : GoalRecord}
    (hall : ∀ b ∈ goals, g.level ≤ b.level) (hg : cur < g.level) :
    achieved goals cur = [] := by
  rw [achieved, List.filter_eq_nil_iff]
  intro a ha
  have := hall a ha
  simp only [decide_eq_true_eq, ge_iff_le]
  omega

/-- C2: for every goal list sorted ascending by level (the invariant every
`Achievement` instance maintains) and every integer counter value, the
`achieved` and `unachieved` views are disjoint and their order-preserving
union (`achieved ++ unachieved`) is exactly the full goal list. -/
theorem achieved_unachieved_partition (goals : List GoalRecord) (cur : Int)
    (hs : SortedByLevel goals) :
    achieved goals cur ++ unachieved goals cur = goals ∧
    ∀ g, g ∈ achieved goals cur → g ∉ unachieved goals cur := by
  constructor
  · induction goals with
    | nil => simp [achieved, unachieved]
    | cons g rest ih =>
      obtain ⟨hall, hrest⟩ := List.pairwise_cons.mp hs
      by_cases hc : g.level ≤ cur
      · have h1 : achieved (g :: rest) cur = g :: achieved rest cur := by
          simp [achieved, List.filter_cons]
          omega
        have h2 : unachieved (g :: rest) cur = unachieved rest cur := by
          simp [unachieved, List.filter_cons]
          omega
        rw [h1, h2, List.cons_append, ih hrest]
      · have hg : cur < g.level := by omega
        have h1 : achieved (g :: rest) cur = achieved rest cur := by
          simp [achieved, List.filter_cons]
          omega
        have h2 : unachieved (g :: rest) cur = g :: unachieved rest cur := by
          simp [unachieved, List.filter_cons]
          omega
        have h3 : achieved rest cur = [] :=
          achieved_eq_nil_of_lt hall hg
        have h4 : unachieved rest cur = rest := by
          rw [unachieved, List.filter_eq_self]
          intro a ha
          have := hall a ha
          simp only [decide_eq_true_eq]
          omega
        rw [h1, h2, h3, h4, List.nil_append]
  · intro g hga hgu
    rw [achieved, List.mem_filter] at hga
    rw [unachieved, List.mem_filter] at hgu
    obtain ⟨-, ha⟩ := hga
    obtain ⟨-, hu⟩ := hgu
    simp only [decide_eq_true_eq, ge_iff_le] at ha hu
    omega

/-- Closed instance of `achieved_unachieved_partition` at a concrete sorted
goal list and counter. -/
theorem achieved_unachieved_partition_witness :
    SortedByLevel [⟨1, "a", "d1"⟩, ⟨100, "b", "d2"⟩] ∧
    (achieved [⟨1, "a", "d1"⟩, ⟨100, "b", "d2"⟩] 5 ++
       unachieved [⟨1, "a", "d1"⟩, ⟨100, "b", "d2"⟩] 5 =
       [⟨1, "a", "d1"⟩, ⟨100, "b", "d2"⟩] ∧
     ∀ g, g ∈ achieved [⟨1, "a", "d1"⟩, ⟨100, "b", "d2"⟩] 5 →
       g ∉ unachieved [⟨1, "a", "d1"⟩, ⟨100, "b", "d2"⟩] 5) := by
  have hs : SortedByLevel [⟨1, "a", "d1"⟩, ⟨100, "b", "d2"⟩] := by
    decide
  exact ⟨hs, achieved_unachieved_partition [⟨1, "a", "d1"⟩, ⟨100, "b", "d2"⟩] 5 hs⟩

/-- C5: after any `add_goal` or `remove_goal` the resulting goal list is
sorted ascending by level (both operations end with
`sorted(..., key=lambda g: g['level'])`). -/
theorem goal_mutations_sorted (goals : List GoalRecord) (lvl : Int) (nm desc : String)
    (nm2 : String) (lvl2 : Int) :
    SortedByLevel (add_goal goals lvl nm desc) ∧
    SortedByLevel (remove_goal goals nm2 lvl2) :=
  ⟨sortGoals_sorted _, sortGoals_sorted _⟩

/-- C7: `remove_goal(name, level)` removes exactly the records whose name
matches OR whose level matches, and keeps every other record: membership in
the result is membership in the input plus mismatch of both fields. -/
theorem remove_goal_or_match (goals : List GoalRecord) (nm : String) (lvl : Int)
    (g : GoalRecord) :
    g ∈ remove_goal goals nm lvl ↔ (g ∈ goals ∧ g.name ≠ nm ∧ g.level ≠ lvl) := by
  rw [remove_goal, (sortGoals_perm _).mem_iff, List.mem_filter]
  simp only [decide_eq_true_eq, decide_not, Bool.not_eq_eq_eq_not, Bool.not_true,
    decide_eq_false_iff_not]
  tauto

/-- Which signals a call to `AchievementTracker._check_signals` emits:
whether `level_increased` fired, the payload of `goal_achieved` when it
fired (`none` = not emitted), and whether `highest_level_achieved` fired. -/
structure SignalEmissions where
  levelIncreased : Bool
  goalAchieved : Option (List GoalRecord)
  highestLevelAchieved : Bool
deriving DecidableEq, Repr

/-- Model of `AchievementTracker._check_signals`:
`cur_level = achievement.current[0]`; emit `level_increased` when
`old_level < cur_level`; when `old_achieved != achievement.achieved`,
compute `new_goals = [_ for _ in achievement.achieved if _ not in old_achieved]`,
emit `goal_achieved` with that payload, emit `highest_level_achieved` when
`unachieved` is empty, and return `new_goals`; otherwise return `False`
(modelled as `none`). `goals`/`cur` are the achievement's goal list and
`_current` after the mutation. -/
def check_signals (goals : List GoalRecord) (cur old_level : Int)
    (old_achieved : List GoalRecord) : SignalEmissions × Option (List GoalRecord) :=
  let li := decide (old_level < cur)
  if old_achieved ≠ achieved goals cur then
    let new_goals := (achieved goals cur).filter (fun g => g ∉ old_achieved)
    (⟨li, some new_goals, (unachieved goals cur).isEmpty⟩, some new_goals)
  else
    (⟨li, none, false⟩, none)

/-- Model of `AchievementTracker.increment`: snapshot `(cur_level, achieved)`, run
`Achievement.increment` (`self._current += amount`), persist, then
`_check_signals`; the first component is the new `_current`. -/
def tracker_increment (goals : List GoalRecord) (cur amount : Int) :
    Int × SignalEmissions × Option (List GoalRecord) :=
  let old_level := cur
  let old_achieved := achieved goals cur
  let cur2 := cur + amount
  (cur2, check_signals goals cur2 old_level old_achieved)

/-- Model of `AchievementTracker.set_level`: snapshot, run `Achievement.set_level`
(`self._current = level`), persist, then `_check_signals`. -/
def tracker_set_level (goals : List GoalRecord) (cur level : Int) :
    Int × SignalEmissions × Option (List GoalRecord) :=
  let old_level := cur
  let old_achieved := achieved goals cur
  let cur2 := level
  (cur2, check_signals goals cur2 old_level old_achieved)

/-- Model of `AchievementTracker.evaluate` with `DiscordAchievement.evaluate`
(`self._current += good_points; self._current -= bad_points`): snapshot,
mutate, persist, then `_check_signals`. -/
def tracker_evaluate (goals : List GoalRecord) (cur good bad : Int) :
    Int × SignalEmissions × Option (List GoalRecord) :=
  let old_level := cur
  let old_achieved := achieved goals cur
  let cur2 := cur + good - bad
  (cur2, check_signals goals cur2 old_level old_achieved)

/-- C3 counterexample: with the single goal `{level 1}` and counter 5, the
mutation `set_level 0` removes the goal from `achieved`, so the delta of
newly achieved goals is empty — yet `goal_achieved` IS emitted (with the
empty payload) and the check returns the empty list rather than `False`. -/
theorem check_signals_emits_on_empty_delta :
    (tracker_set_level [⟨1, "g", "d"⟩] 5 0).2.1.goalAchieved = some [] ∧
    (tracker_set_level [⟨1, "g", "d"⟩] 5 0).2.2 = some [] ∧
    (tracker_set_level [⟨1, "g", "d"⟩] 5 0).2.2 ≠ none := by
  refine ⟨?_, ?_, ?_⟩ <;> decide

/-- Behaviour of `_check_signals` as implemented: `goal_achieved` fires
exactly when the `achieved` list changed (in either direction); its payload
and the return value are the list of goals newly present in `achieved`,
which is empty when goals were only lost; the return is `False` (`none`)
exactly when the `achieved` list is unchanged. -/
theorem check_signals_spec (goals : List GoalRecord) (cur old_level : Int)
    (old_achieved : List GoalRecord) :
    ((check_signals goals cur old_level old_achieved).1.goalAchieved =
      if old_achieved = achieved goals cur then none
      else some ((achieved goals cur).filter (fun g => g ∉ old_achieved))) ∧
    (check_signals goals cur old_level old_achieved).2 =
      (check_signals goals cur old_level old_achieved).1.goalAchieved ∧
    (check_signals goals cur old_level old_achieved).1.levelIncreased =
      decide (old_level < cur) := by
  by_cases h : old_achieved = achieved goals cur <;>
    simp [check_signals, h]

/-- C3 amended: after each of the three tracker mutations, `goal_achieved`
is emitted exactly when the post-mutation `achieved` list differs from the
pre-mutation snapshot; when emitted its payload is the (possibly empty)
list of goals newly present in `achieved`, and the check returns that
payload; when not emitted the check returns `False` (`none`). -/
theorem tracker_mutations_signal_check (goals : List GoalRecord)
    (cur amount level good bad : Int) :
    ((tracker_increment goals cur amount).2.1.goalAchieved =
        (if achieved goals cur = achieved goals (cur + amount) then none
         else some ((achieved goals (cur + amount)).filter
           (fun g => g ∉ achieved goals cur))) ∧
      (tracker_increment goals cur amount).2.2 =
        (tracker_increment goals cur amount).2.1.goalAchieved) ∧
    ((tracker_set_level goals cur level).2.1.goalAchieved =
        (if achieved goals cur = achieved goals level then none
         else some ((achieved goals level).filter
           (fun g => g ∉ achieved goals cur))) ∧
      (tracker_set_level goals cur level).2.2 =
        (tracker_set_level goals cur level).2.1.goalAchieved) ∧
    ((tracker_evaluate goals cur good bad).2.1.goalAchieved =
        (if achieved goals cur = achieved goals (cur + good - bad) then none
         else some ((achieved goals (cur + good - bad)).filter
           (fun g => g ∉ achieved goals cur))) ∧
      (tracker_evaluate goals cur good bad).2.2 =
        (tracker_evaluate goals cur good bad).2.1.goalAchieved) := by
  refine ⟨⟨?_, ?_⟩, ⟨?_, ?_⟩, ⟨?_, ?_⟩⟩
  · exact (check_signals_spec goals (cur + amount) cur (achieved goals cur)).1
  · exact (check_signals_spec goals (cur + amount) cur (achieved goals cur)).2.1
  · exact (check_signals_spec goals level cur (achieved goals cur)).1
  · exact (check_signals_spec goals level cur (achieved goals cur)).2.1
  · exact (check_signals_spec goals (cur + good - bad) cur (achieved goals cur)).1
  · exact (check_signals_spec goals (cur + good - bad) cur (achieved goals cur)).2.1

instance (α β : Type) [DecidableEq α] [DecidableEq β] : DecidableEq (Except α β) :=
  fun a b =>
    match a, b with
    | Except.ok x, Except.ok y =>
      if h : x = y then isTrue (by rw [h]) else isFalse (by intro hc; cases hc; exact h rfl)
    | Except.error x, Except.error y =>
      if h : x = y then isTrue (by rw [h]) else isFalse (by intro hc; cases hc; exact h rfl)
    | Except.ok _, Except.error _ => isFalse (by intro hc; cases hc)
    | Except.error _, Except.ok _ => isFalse (by intro hc; cases hc)

/-- A connected receiver: `rid` models the Python object identity of the
receiver callable, `behavior` what calling it returns — a value, or the
exception it raises (captured by `send_robust`). -/
structure SigReceiver where
  rid : Nat
  behavior : Except PyError Int
deriving DecidableEq, Repr

/-- One entry of `Signal.receivers`: the `lookup_key` pair
`(dispatch_uid-or-receiver-id, sender-id)` plus the receiver itself.
`senderKey = none` models `NONE_ID` (connected with `sender=None`,
matching any sender). -/
structure SigEntry where
  uidKey : Nat
  senderKey : Option Nat
  recv : SigReceiver
deriving DecidableEq, Repr

/-- Model of `Signal._receivers(sender)`: keep the receivers whose recorded sender
key is `NONE_ID` or equals `_make_id(sender)`. -/
def receiversFor (entries : List SigEntry) (senderKey : Option Nat) : List SigReceiver :=
  (entries.filter (fun en => en.senderKey = none ∨ en.senderKey = senderKey)).map
    (fun en => en.recv)

/-- Model of `Signal.send_robust(sender, **named)`: invoke every matching receiver
once, in registration order; record `(receiver, response)` on success and
`(receiver, err)` when the receiver raises. The second component is the
trace of invocations (one entry per call, in order). -/
def send_robust (entries : List SigEntry) (senderKey : Option Nat) :
    List (Nat × Except PyError Int) × List Nat :=
  let rs := receiversFor entries senderKey
  (rs.map (fun r => (r.rid, r.behavior)), rs.map (fun r => r.rid))

/-- C8: for a signal whose receiver list holds one failing and one
succeeding receiver, both registered for the sender (or as wildcards),
`send_robust` returns one result per receiver — the captured exception for
the failing one, the actual return value for the succeeding one — and the
invocation trace shows each receiver invoked exactly once, in order. -/
theorem send_robust_two_receivers (k1 k2 r1 r2 : Nat) (s1 s2 senderKey : Option Nat)
    (e : PyError) (v : Int)
    (h1 : s1 = none ∨ s1 = senderKey) (h2 : s2 = none ∨ s2 = senderKey) :
    send_robust [⟨k1, s1, ⟨r1, Except.error e⟩⟩, ⟨k2, s2, ⟨r2, Except.ok v⟩⟩] senderKey =
      ([(r1, Except.error e), (r2, Except.ok v)], [r1, r2]) := by
  simp [send_robust, receiversFor, List.filter_cons, h1, h2]

/-- Closed instance of `send_robust_two_receivers`: a wildcard failing
receiver and a sender-specific succeeding one. -/
theorem send_robust_two_receivers_witness :
    send_robust [⟨1, none, ⟨1, Except.error (PyError.exc 0)⟩⟩,
        ⟨2, some 7, ⟨2, Except.ok 42⟩⟩] (some 7) =
      ([(1, Except.error (PyError.exc 0)), (2, Except.ok 42)], [1, 2]) :=
  send_robust_two_receivers 1 2 1 2 none (some 7) (some 7) (PyError.exc 0) 42
    (Or.inl rfl) (Or.inr rfl)

/-- An achievement definition as the tracker registry sees it: the class
name (`__name__`) and the `category` attribute. Equality models Python
object identity of the class (distinct classes have distinct names). -/
structure AchievementDef where
  name : String
  category : String
deriving DecidableEq, Repr

/-- The abstract base class `Achievement` (`name = 'Achievement'`,
`category = 'achievements'`). -/
def baseAchievement : AchievementDef := ⟨"Achievement", "achievements"⟩

/-- Model of `AchievementTracker.register` over the
iterable, with the registry threaded through: per element, raise
`ValueError` when `category` is falsy, raise `AlreadyRegistered` when the
element is already in `self._registry`, and append unless the element `is`
the base `Achievement` class. The result is the registry when the loop
ends (normally or by an exception) plus the exception, if any — the
registry mutations made before an exception persist. -/
def registerDefs : List AchievementDef → List AchievementDef →
    List AchievementDef × Option PyError
  | registry, [] => (registry, none)
  | registry, a :: rest =>
    if a.category = "" then (registry, some PyError.valueError)
    else if a ∈ registry then (registry, some PyError.alreadyRegistered)
    else registerDefs (if a = baseAchievement then registry else registry ++ [a]) rest

/-- The name-resolution step of `AchievementTracker.achievement_for_id`:
`a = [_ for _ in self._registry if _.__name__ == achievement]`; return the
first match or raise `NotRegistered`. -/
def resolveDef (registry : List AchievementDef) (nm : String) :
    Except PyError AchievementDef :=
  match registry.filter (fun d => d.name = nm) with
  | [] => Except.error PyError.notRegistered
  | d :: _ => Except.ok d

/-- C4: registering a definition already present in the registry (all
registered definitions have a non-empty category, since `register` refuses
empty ones) raises `AlreadyRegistered` and leaves the registry unchanged;
resolving a name carried by no registered definition in
`achievement_for_id` raises `NotRegistered`. -/
theorem register_duplicate_and_unknown_name (registry : List AchievementDef)
    (a : AchievementDef) (nm : String)
    (hcat : a.category ≠ "") (ha : a ∈ registry)
    (hnm : ∀ d ∈ registry, d.name ≠ nm) :
    registerDefs registry [a] = (registry, some PyError.alreadyRegistered) ∧
    resolveDef registry nm = Except.error PyError.notRegistered := by
  constructor
  · simp [registerDefs, hcat, ha]
  · have hfil : registry.filter (fun d => d.name = nm) = [] := by
      rw [List.filter_eq_nil_iff]
      intro d hd
      simpa using hnm d hd
    rw [resolveDef, hfil]

/-- Closed instance of `register_duplicate_and_unknown_name`. -/
theorem register_duplicate_and_unknown_name_witness :
    registerDefs [⟨"X", "c"⟩] [⟨"X", "c"⟩] =
      ([⟨"X", "c"⟩], some PyError.alreadyRegistered) ∧
    resolveDef [⟨"X", "c"⟩] "Y" = Except.error PyError.notRegistered :=
  register_duplicate_and_unknown_name [⟨"X", "c"⟩] ⟨"X", "c"⟩ "Y"
    (by decide) (by decide) (by decide)

/-- Iterated registration: `n` successive calls of `tracker.register(Achievement)` with the
abstract base class, stopping at the first exception. -/
def registerBaseTimes : Nat → List AchievementDef → List AchievementDef × Option PyError
  | 0, registry => (registry, none)
  | n + 1, registry =>
    match registerDefs registry [baseAchievement] with
    | (r2, none) => registerBaseTimes n r2
    | (r2, some e) => (r2, some e)

/-- C9: calling `register` with the abstract base `Achievement` class any
number of times never adds it to the registry (the registry is returned
unchanged) and never raises — in particular no `AlreadyRegistered` — as
long as the base class is not already in the registry (it never is: only
non-base definitions are ever appended). -/
theorem register_base_never_added (n : Nat) (registry : List AchievementDef)
    (h : baseAchievement ∉ registry) :
    registerBaseTimes n registry = (registry, none) := by
  induction n with
  | zero => rfl
  | succ n ih =>
    have hcat : ¬ (baseAchievement.category = "") := by decide
    have hstep : registerDefs registry [baseAchievement] = (registry, none) := by
      rw [registerDefs, if_neg hcat, if_neg h, if_pos rfl, registerDefs]
    rw [registerBaseTimes, hstep]
    exact ih

/-- Closed instance of `register_base_never_added`: three registrations of
the base class on a registry holding one real definition. -/
theorem register_base_never_added_witness :
    registerBaseTimes 3 [⟨"X", "c"⟩] = ([⟨"X", "c"⟩], none) :=
  register_base_never_added 3 [⟨"X", "c"⟩] (by decide)

theorem registerDefs_mono (l : List AchievementDef) :
    ∀ registry : List AchievementDef, ∀ x ∈ registry, x ∈ (registerDefs registry l).1 := by
  induction l with
  | nil =>
    intro registry x hx
    exact hx
  | cons a rest ih =>
    intro registry x hx
    rw [registerDefs]
    by_cases hcat : a.category = ""
    · rw [if_pos hcat]
      exact hx
    · rw [if_neg hcat]
      by_cases hmem : a ∈ registry
      · rw [if_pos hmem]
        exact hx
      · rw [if_neg hmem]
        by_cases hbase : a = baseAchievement
        · rw [if_pos hbase]
          exact ih registry x hx
        · rw [if_neg hbase]
          exact ih (registry ++ [a]) x (List.mem_append_left _ hx)

theorem registerDefs_append (l1 : List AchievementDef) :
    ∀ (registry r2 : List AchievementDef) (l2 : List AchievementDef),
      registerDefs registry l1 = (r2, none) →
      registerDefs registry (l1 ++ l2) = registerDefs r2 l2 := by
  induction l1 with
  | nil =>
    intro registry r2 l2 h
    rw [registerDefs] at h
    injection h with h1 h2
    rw [h1]
    rfl
  | cons a rest ih =>
    intro registry r2 l2 h
    rw [registerDefs] at h
    rw [List.cons_append, registerDefs]
    by_cases hcat : a.category = ""
    · simp [hcat] at h
    · by_cases hmem : a ∈ registry
      · simp [hcat, hmem] at h
      · simp only [hcat, if_neg, hmem, if_false] at h ⊢
        exact ih _ _ _ h

theorem registerDefs_elem_of_ok (l : List AchievementDef) :
    ∀ (registry r2 : List AchievementDef),
      registerDefs registry l = (r2, none) →
      ∀ a ∈ l, a ≠ baseAchievement → a ∈ r2 := by
  induction l with
  | nil =>
    intro registry r2 h a ha
    exact absurd ha (List.not_mem_nil a)
  | cons b rest ih =>
    intro registry r2 h a ha hbase
    rw [registerDefs] at h
    by_cases hcat : b.category = ""
    · simp [hcat] at h
    · by_cases hmem : b ∈ registry
      · simp [hcat, hmem] at h
      · simp only [hcat, if_neg, hmem, if_false] at h
        rcases List.mem_cons.mp ha with rfl | hrest
        · rw [if_neg hbase] at h
          have : a ∈ registry ++ [a] := List.mem_append_right _ (List.mem_singleton.mpr rfl)
          have h2 := registerDefs_mono rest (registry ++ [a]) a this
          rw [h] at h2
          exact h2
        · exact ih _ _ h a hrest hbase

/-- C10: `register` over an iterable is not atomic. If the prefix `l1`
registers without error (reaching registry `r2`), then registering
`l1 ++ l2` behaves exactly like continuing with `l2` from `r2` — even when
`l2` raises, the registry retains every appended element of `l1`: every
non-base element of `l1` is in the final registry. -/
theorem register_not_atomic (registry l1 l2 r2 : List AchievementDef)
    (h1 : registerDefs registry l1 = (r2, none)) :
    registerDefs registry (l1 ++ l2) = registerDefs r2 l2 ∧
    ∀ a ∈ l1, a ≠ baseAchievement → a ∈ (registerDefs registry (l1 ++ l2)).1 := by
  have happ := registerDefs_append l1 registry r2 l2 h1
  refine ⟨happ, ?_⟩
  intro a ha hbase
  rw [happ]
  exact registerDefs_mono l2 r2 a (registerDefs_elem_of_ok l1 registry r2 h1 a ha hbase)

/-- Closed instance of `register_not_atomic`: registering `[A, A]` raises
`AlreadyRegistered` on the second element, yet the first `A` stays
registered. -/
theorem register_not_atomic_witness :
    registerDefs [] [(⟨"A", "c"⟩ : AchievementDef)] = ([⟨"A", "c"⟩], none) ∧
    registerDefs [] ([⟨"A", "c"⟩] ++ [⟨"A", "c"⟩]) =
      ([⟨"A", "c"⟩], some PyError.alreadyRegistered) ∧
    (⟨"A", "c"⟩ : AchievementDef) ∈ (registerDefs [] ([⟨"A", "c"⟩] ++ [⟨"A", "c"⟩])).1 := by
  refine ⟨by decide, by decide, ?_⟩
  exact (register_not_atomic [] [⟨"A", "c"⟩] [⟨"A", "c"⟩] [⟨"A", "c"⟩] (by decide)).2
    ⟨"A", "c"⟩ (by decide) (by decide)

/-- In-memory state of one stored `Achievement` instance: its `_current`
counter (the only per-instance datum the store is meant to persist). -/
structure AchState where
  current : Int
deriving DecidableEq, Repr

/-- Innermost level of the store: `definition_name → Achievement`. -/
abbrev AchMap := List (String × AchState)

/-- Middle level of the store: `subject_id → definition_name → Achievement`. -/
abbrev UserMap := List (String × AchMap)

/-- Model of `AchievementBackend.accounts`: `scope_id → subject_id → definition_name
→ Achievement`. Python dicts preserve insertion order; an association list
models them (keys are unique by construction). -/
abbrev Accounts := List (String × UserMap)

/-- A JSON value as `dataIO.save_json` / `load_json` handle it (only the
shapes this module produces). -/
inductive JVal where
  | jstr : String → JVal
  | jint : Int → JVal
  | jobj : List (String × JVal) → JVal

/-- Python string indexing `s[0]`: the one-character prefix, or
`IndexError` on the empty string. -/
def firstChar (s : String) : Except PyError String :=
  if s.length = 0 then Except.error PyError.indexError else Except.ok (s.take 1)

/-- Model of `AchievementBackend._save_loyalty`: build `to_save` with
`to_save[key_server][key_user][key_achievement] = key_achievement[0]` —
the value written is the FIRST CHARACTER of the definition-name key
(`key_achievement` is the dict key, a string), not the stored
achievement's `_current` (`value_achievement` is never used) — and pass it
to `dataIO.save_json`. The result is the JSON written to disk. -/
def save_loyalty (accounts : Accounts) : Except PyError JVal := do
  let servers ← accounts.mapM (fun sv => do
    let users ← sv.2.mapM (fun uv => do
      let achs ← uv.2.mapM (fun av => do
        let c ← firstChar av.1
        pure (av.1, JVal.jstr c))
      pure (uv.1, JVal.jobj achs))
    pure (sv.1, JVal.jobj users))
  pure (JVal.jobj servers)

/-- Model of `AchievementBackend._load_loyalty(file_path, achievement)`: reload the
JSON, then for each server key set `self.accounts[key_server] = {}`, for
each user key set `self.accounts[key_server][key_user] = {}`, and then read
`self.accounts[key_server][key_user][key_achievement]._current` — a lookup
in the dict that was just emptied, so any subject with at least one stored
achievement raises `KeyError`; iterating a non-dict raises
`AttributeError`. -/
def load_loyalty (j : JVal) : Except PyError Accounts :=
  match j with
  | JVal.jobj servers =>
    servers.mapM (fun sv =>
      match sv.2 with
      | JVal.jobj users => do
        let us ← users.mapM (fun uv =>
          match uv.2 with
          | JVal.jobj achs =>
            match achs with
            | [] => Except.ok (uv.1, ([] : AchMap))
            | _ :: _ => Except.error PyError.keyError
          | _ => Except.error PyError.attributeError)
        pure (sv.1, us)
      | _ => Except.error PyError.attributeError)
  | _ => Except.error PyError.attributeError

/-- A one-subject store: server `"s"`, user `"u"`, definition
`"DiscordAchievement"` at progress `c`. -/
def oneSubjectStore (c : Int) : Accounts :=
  [("s", [("u", [("DiscordAchievement", ⟨c⟩)])])]

/-- C1 (code bug): the persist/reload round trip cannot reproduce `current`.
`_save_loyalty` writes the first character of the definition-name key
instead of the progress value, so the saved JSON for progress 5 and
progress 7 coincide (the stored value is the string `"D"`); and
`_load_loyalty` raises `KeyError` on any store with a stored achievement,
because it reads back from the per-user dict it has just emptied. -/
theorem save_load_roundtrip_broken :
    save_loyalty (oneSubjectStore 5) = save_loyalty (oneSubjectStore 7) ∧
    save_loyalty (oneSubjectStore 5) =
      Except.ok (JVal.jobj [("s", JVal.jobj [("u",
        JVal.jobj [("DiscordAchievement", JVal.jstr "D")])])]) ∧
    load_loyalty (JVal.jobj [("s", JVal.jobj [("u",
        JVal.jobj [("DiscordAchievement", JVal.jstr "D")])])]) =
      Except.error PyError.keyError := by
  refine ⟨rfl, rfl, rfl⟩

/-- Association-list lookup, modelling Python dict indexing. -/
def alookup (l : List (String × α)) (k : String) : Option α :=
  (l.find? (fun p => p.1 = k)).map (fun p => p.2)

/-- Model of `AchievementBackend.remove_id(user)`: evaluate
`user.id in self.accounts[user.server.id]` (raising `KeyError` when the
scope is absent); when the membership test succeeds the body
`del self.accounts[server.id][user.id]` raises `NameError`, because
`server` is an unbound name in this method; otherwise the `del` is skipped
and `_save_loyalty()` runs, leaving the store unchanged. -/
def remove_id (accounts : Accounts) (serverId userId : String) :
    Except PyError Accounts :=
  match alookup accounts serverId with
  | none => Except.error PyError.keyError
  | some userMap =>
    if (alookup userMap userId).isSome then
      Except.error PyError.nameError
    else
      Except.ok accounts

/-- C6 (code bug): removing a subject whose state exists never deletes
anything — `remove_id` raises `NameError` (unbound `server`) for the
subject `("s", "u")` present in the store. -/
theorem remove_id_raises_on_existing_subject :
    remove_id (oneSubjectStore 3) "s" "u" = Except.error PyError.nameError := by
  rfl

end Loyalty
